import Mathlib

/-!
Shallow embedding of `source/Learn_how2use/Learn_how2use/tasks/direct/learn_how2use/learn_how2use_env.py`.

The environment class `LearnHow2useEnv` is a callback surface: all tensor
operations are elementwise per environment instance, so batched tensors of
shape `(num_envs, k)` are embedded as functions `ℕ → _` (per-environment
values) or as `List`s where the stacking structure itself matters
(`_visualize_markers`).  Host-framework functions that the repository merely
calls (`quat_apply`, `quat_from_angle_axis`) are kept abstract as function
parameters; numbers are real numbers.
-/

noncomputable section

namespace LearnHow2use

open Real

/-- A row of a `(n, 3)` tensor. -/
structure Vec3 where
  x : ℝ
  y : ℝ
  z : ℝ

/-- A row of a `(n, 4)` quaternion tensor (w, x, y, z as stored by Isaac Lab). -/
structure Quat where
  w : ℝ
  x : ℝ
  y : ℝ
  z : ℝ

/-- Componentwise addition of 3-vectors (torch broadcast `+`). -/
def vadd (a b : Vec3) : Vec3 := ⟨a.x + b.x, a.y + b.y, a.z + b.z⟩

/-- Division of a 3-vector by a scalar (torch broadcast `/`). -/
def vdiv (v : Vec3) (r : ℝ) : Vec3 := ⟨v.x / r, v.y / r, v.z / r⟩

/-- Euclidean norm of one row, `torch.linalg.norm(·, dim=1)`. -/
def vnorm (v : Vec3) : ℝ := Real.sqrt (v.x ^ 2 + v.y ^ 2 + v.z ^ 2)

/-- Elementwise product of two rows (torch `*`). -/
def vmul (a b : Vec3) : Vec3 := ⟨a.x * b.x, a.y * b.y, a.z * b.z⟩

/-- Row sum, `torch.sum(·, dim=-1)`. -/
def vsum (v : Vec3) : ℝ := v.x + v.y + v.z

/-- The 3D cross product, `torch.cross(·, ·, dim=-1)`. -/
def cross3 (a b : Vec3) : Vec3 :=
  ⟨a.y * b.z - a.z * b.y, a.z * b.x - a.x * b.z, a.x * b.y - a.y * b.x⟩

/-- The mathematical dot product of two 3-vectors (used to state claims). -/
def dot3 (a b : Vec3) : ℝ := a.x * b.x + a.y * b.y + a.z * b.z

/-- Line 71: `self.up_dir = torch.tensor([0.0, 0.0, 1.0])`. -/
def up_dir : Vec3 := ⟨0, 0, 1⟩

/-- The additive guard `1E-8` of lines 78 and 147, as an exact real. -/
def eps : ℝ := 1 / 10 ^ 8

/-- Lines 74 and 143: `self.commands[:, -1] = 0.0` applied to one sampled row. -/
def zeroLastColumn (v : Vec3) : Vec3 := ⟨v.x, v.y, 0⟩

/-- Lines 73-75 (and 142-144) applied to one `randn` row: zero the z entry,
then divide by the row norm of the zeroed row. -/
def commandOf (sample : Vec3) : Vec3 :=
  vdiv (zeroLastColumn sample) (vnorm (zeroLastColumn sample))

/-- The denominator of the yaw division, lines 78 and 147:
`self.commands[:, 0] + 1E-8` for one command row. -/
def yawDenom (c : Vec3) : ℝ := c.x + eps

/-- Lines 77-84 (and 146-153) applied to one command row:
`atan(y / (x + 1E-8))` plus `π` when `x < 0 < y`, minus `π` when
`x < 0 ∧ y < 0` (the `plus` and `minus` indicator products). -/
def yawOf (c : Vec3) : ℝ :=
  Real.arctan (c.y / yawDenom c)
    + ((if c.x < 0 ∧ 0 < c.y then (π : ℝ) else 0)
       - (if c.x < 0 ∧ c.y < 0 then (π : ℝ) else 0))

/-- The quadrant-corrected arctangent the spec refers to ("atan2(y, x)"),
stated from its standard mathematical definition, for comparison with the
code's `yawOf`. -/
def atan2 (y x : ℝ) : ℝ :=
  if 0 < x then Real.arctan (y / x)
  else if x < 0 ∧ 0 ≤ y then Real.arctan (y / x) + π
  else if x < 0 ∧ y < 0 then Real.arctan (y / x) - π
  else if x = 0 ∧ 0 < y then π / 2
  else if x = 0 ∧ y < 0 then -(π / 2)
  else 0

/-- One row of the 13-dimensional root state tensor
(position, orientation, linear and angular velocity). -/
structure RootState where
  pos : Vec3
  quat : Quat
  linVel : Vec3
  angVel : Vec3

/-- The per-environment state the environment class stores and updates
(`self.commands`, `self.yaws`), indexed by environment number. -/
structure EnvState where
  commands : ℕ → Vec3
  yaws : ℕ → ℝ

/-- Lines 70-84 of `_setup_scene`: sample a `randn` row per environment
(`samples i` is the row drawn for environment `i`), zero its z entry,
normalize it into `self.commands`, and derive `self.yaws` from the stored
commands by the offset-corrected arctangent. -/
def _setup_scene (samples : ℕ → Vec3) : EnvState :=
  { commands := fun i => commandOf (samples i)
    yaws := fun i => yawOf (commandOf (samples i)) }

/-- Line 88: `self.marker_offset[:, -1] = 0.5` on a zero tensor, one row. -/
def marker_offset : Vec3 := ⟨0, 0, 0.5⟩

/-- Lines 136-160, `_reset_idx`: when `env_ids` is `None` it is replaced by
`self.robot._ALL_INDICES` (all environment indices `0..n-1`); the selected
environments get a freshly sampled, zeroed and normalized command, a yaw
recomputed from the new command, and their root state written to sim as the
default root state with its position translated by the environment origin.
The call to `super()._reset_idx` (host bookkeeping) and the final
`_visualize_markers` call (modelled separately) carry no state modelled
here.  Returns the updated stored state and the root states written to sim. -/
def _reset_idx (n : ℕ) (s : EnvState) (envIds : Option (List ℕ))
    (samples : ℕ → Vec3) (default_root_state : ℕ → RootState)
    (env_origins : ℕ → Vec3) (simRoot : ℕ → RootState) :
    EnvState × (ℕ → RootState) :=
  let ids := envIds.getD (List.range n)
  ({ commands := fun i => if i ∈ ids then commandOf (samples i) else s.commands i
     yaws := fun i => if i ∈ ids then yawOf (commandOf (samples i)) else s.yaws i },
   fun i => if i ∈ ids then
      { default_root_state i with
          pos := vadd (default_root_state i).pos (env_origins i) }
    else simRoot i)

/-- The robot data read by `_get_observations` for one environment. -/
structure RobotData where
  root_link_quat_w : Quat
  forward_vec_b : Vec3
  root_com_vel_w : Vec3 × Vec3
  root_com_lin_vel_b : Vec3

/-- The intermediate quantities `_get_observations` stores on `self`. -/
structure ObsState where
  velocity : Vec3 × Vec3
  forwards : Vec3
  dot : ℝ
  cross : ℝ
  forward_speed : ℝ

/-- The dictionary returned by `_get_observations`; its single `"policy"`
entry is one row of the `(n, 3)` `torch.hstack((dot, cross, forward_speed))`. -/
structure Observations where
  policy : ℝ × ℝ × ℝ

/-- Lines 100-121, `_get_observations` for one environment: store the 6D
velocity, the world-frame forward vector `quat_apply(root_link_quat_w,
FORWARD_VEC_B)` (the host function `quat_apply` is an abstract parameter),
the sum of the elementwise product of forwards and command, the last entry
of their cross product, and entry 0 of the body-frame COM linear velocity;
return them stacked as the `"policy"` observation. -/
def _get_observations (quat_apply : Quat → Vec3 → Vec3) (d : RobotData)
    (command : Vec3) : ObsState × Observations :=
  let velocity := d.root_com_vel_w
  let forwards := quat_apply d.root_link_quat_w d.forward_vec_b
  let dot := vsum (vmul forwards command)
  let cross := (cross3 forwards command).z
  let forward_speed := d.root_com_lin_vel_b.x
  (⟨velocity, forwards, dot, cross, forward_speed⟩,
   ⟨(dot, cross, forward_speed)⟩)

/-- Lines 123-130, `_get_rewards` for one environment:
`forward_speed * dot - |cross|` from the stored observation quantities. -/
def _get_rewards (o : ObsState) : ℝ := o.forward_speed * o.dot - |o.cross|

/-- Lines 132-134, `_get_dones`: the scalar `False` (broadcast by the host
over environments) and the per-environment
`episode_length_buf >= max_episode_length - 1`. -/
def _get_dones (episode_length_buf : ℕ → ℤ) (max_episode_length : ℤ) :
    Bool × (ℕ → Bool) :=
  (false, fun i => decide (episode_length_buf i ≥ max_episode_length - 1))

/-- The arguments of one `self.visualization_markers.visualize(...)` call. -/
structure MarkerCall where
  loc : List Vec3
  rots : List Quat
  markerIndices : List ℕ

/-- Lines 164-178, `_visualize_markers`: marker locations are the robot root
positions offset by `marker_offset` and stacked twice (`torch.vstack`);
rotations are the root orientations stacked on top of
`quat_from_angle_axis(yaws, up_dir)` (the host function is an abstract
parameter); marker indices are `num_envs` zeros followed by `num_envs` ones
(`torch.hstack((zeros_like, ones_like))` over `arange(num_envs)`). -/
def _visualize_markers (quat_from_angle_axis : ℝ → Vec3 → Quat)
    (num_envs : ℕ) (root_pos_w : List Vec3) (root_quat_w : List Quat)
    (yaws : List ℝ) : MarkerCall :=
  let forward_marker_orientations := root_quat_w
  let command_marker_orientations :=
    yaws.map fun yaw => quat_from_angle_axis yaw up_dir
  let loc := root_pos_w.map fun p => vadd p marker_offset
  { loc := loc ++ loc
    rots := forward_marker_orientations ++ command_marker_orientations
    markerIndices := List.replicate num_envs 0 ++ List.replicate num_envs 1 }

/-- A heap of tensors addressed by reference, for the aliasing behaviour of
`_pre_physics_step` / `_apply_action`: `mem` maps a reference to the tensor
value it currently holds, `next` is the next unallocated reference. -/
structure Heap where
  mem : ℕ → List ℝ
  next : ℕ

/-- In-place mutation of the tensor behind reference `r`. -/
def writeRef (h : Heap) (r : ℕ) (v : List ℝ) : Heap :=
  ⟨fun i => if i = r then v else h.mem i, h.next⟩

/-- Lines 92-94, `_pre_physics_step`: `self.actions = actions.clone()`
allocates a fresh tensor holding a copy of the current value of the caller's
tensor and stores a reference to it.  Returns the new heap and the stored
reference. -/
def _pre_physics_step (h : Heap) (actionsRef : ℕ) : Heap × ℕ :=
  (⟨fun i => if i = h.next then h.mem actionsRef else h.mem i, h.next + 1⟩,
   h.next)

/-- Host `set_joint_velocity_target(vals, joint_ids=dofIdx)` semantics: write
`vals` positionally into the joint-velocity-target vector at the joint
indices `dofIdx`, leaving the other joints untouched. -/
def set_joint_velocity_target (targets : ℕ → ℝ) (dofIdx : List ℕ)
    (vals : List ℝ) : ℕ → ℝ :=
  (dofIdx.zip vals).foldl
    (fun t p => fun j => if j = p.1 then p.2 else t j) targets

/-- Lines 97-98, `_apply_action`: set the joint velocity targets of the
joints `self.dof_idx` to the current value of the stored `self.actions`
tensor. -/
def _apply_action (h : Heap) (actionsRef : ℕ) (dofIdx : List ℕ)
    (targets : ℕ → ℝ) : ℕ → ℝ :=
  set_joint_velocity_target targets dofIdx (h.mem actionsRef)

/-! Helper lemmas. -/

/-- Writing a list of (index, value) pairs leaves a position not named by any
pair untouched. -/
lemma foldl_write_notin (l : List (ℕ × ℝ)) (targets : ℕ → ℝ) (j : ℕ)
    (hj : ∀ p ∈ l, j ≠ p.1) :
    (l.foldl (fun t p => fun k => if k = p.1 then p.2 else t k) targets) j
      = targets j := by
  induction l generalizing targets with
  | nil => rfl
  | cons a tl ih =>
      simp only [List.foldl_cons]
      rw [ih _ (fun p hp => hj p (List.mem_cons_of_mem a hp))]
      simp [hj a (List.mem_cons_self a tl)]

/-- Writing a list of (index, value) pairs with pairwise-distinct indices
stores each pair's value at its index. -/
lemma foldl_write_mem (l : List (ℕ × ℝ)) (targets : ℕ → ℝ) (j : ℕ) (v : ℝ)
    (hnd : (l.map Prod.fst).Nodup) (hmem : (j, v) ∈ l) :
    (l.foldl (fun t p => fun k => if k = p.1 then p.2 else t k) targets) j
      = v := by
  induction l generalizing targets with
  | nil => cases hmem
  | cons a tl ih =>
      simp only [List.map_cons, List.nodup_cons] at hnd
      simp only [List.foldl_cons]
      rcases List.mem_cons.mp hmem with heq | htl
      · subst heq
        have hnot : ∀ p ∈ tl, (j, v).1 ≠ p.1 := by
          intro p hp heq2
          exact hnd.1 (heq2 ▸ List.mem_map_of_mem Prod.fst hp)
        rw [foldl_write_notin tl _ _ hnot]
        simp
      · exact ih _ hnd.2 htl

/-- The first components of a zip form a sublist of the first list. -/
lemma map_fst_zip_sublist (l1 : List ℕ) (l2 : List ℝ) :
    ((l1.zip l2).map Prod.fst).Sublist l1 := by
  induction l1 generalizing l2 with
  | nil => simp
  | cons a tl ih =>
      cases l2 with
      | nil => simp
      | cons b tl2 =>
          simpa [List.zip_cons_cons] using (ih tl2).cons₂ a

/-! Concrete objects shared by witnesses. -/

/-- A concrete root-state row. -/
def exRoot : RootState := ⟨⟨0, 0, 0⟩, ⟨1, 0, 0, 0⟩, ⟨0, 0, 0⟩, ⟨0, 0, 0⟩⟩

/-- A concrete stored environment state. -/
def exState : EnvState := ⟨fun _ => ⟨1, 0, 0⟩, fun _ => 0⟩

/-! Claim theorems. -/

/-- C1: `_get_rewards` returns `forward_speed * dot - |cross|`, where `dot`,
`cross` and `forward_speed` are exactly the three scalars of the `"policy"`
observation the preceding `_get_observations` call produced, i.e. the dot
product of the world-frame forward vector with the command, the z-component
of their cross product, and the x entry of the body-frame COM linear
velocity. -/
theorem c1_reward_formula (quat_apply : Quat → Vec3 → Vec3) (d : RobotData)
    (command : Vec3) :
    _get_rewards (_get_observations quat_apply d command).1
        = (_get_observations quat_apply d command).2.policy.2.2
            * (_get_observations quat_apply d command).2.policy.1
          - |(_get_observations quat_apply d command).2.policy.2.1|
      ∧ _get_rewards (_get_observations quat_apply d command).1
        = d.root_com_lin_vel_b.x
            * dot3 (quat_apply d.root_link_quat_w d.forward_vec_b) command
          - |(cross3 (quat_apply d.root_link_quat_w d.forward_vec_b)
                command).z| :=
  ⟨rfl, rfl⟩

/-- C2: the `"policy"` entry returned by `_get_observations` is exactly the
three scalars (dot product of the robot's world-frame forward vector with
the command vector, z-component of the cross product of those two vectors,
x-component of the body-frame COM linear velocity), in that order. -/
theorem c2_observation_triple (quat_apply : Quat → Vec3 → Vec3)
    (d : RobotData) (command : Vec3) :
    (_get_observations quat_apply d command).2.policy
      = (dot3 (quat_apply d.root_link_quat_w d.forward_vec_b) command,
         (cross3 (quat_apply d.root_link_quat_w d.forward_vec_b) command).z,
         d.root_com_lin_vel_b.x) :=
  rfl

/-- C3: `_get_dones` returns an early-termination component that is `false`
(for every environment, since the scalar is broadcast) and a time-out
component that is true exactly when
`episode_length_buf >= max_episode_length - 1`. -/
theorem c3_dones (episode_length_buf : ℕ → ℤ) (max_episode_length : ℤ)
    (i : ℕ) :
    (_get_dones episode_length_buf max_episode_length).1 = false
      ∧ ((_get_dones episode_length_buf max_episode_length).2 i = true
          ↔ episode_length_buf i ≥ max_episode_length - 1) := by
  exact ⟨rfl, by simp [_get_dones]⟩

/-- C8: `_reset_idx` with an explicit index list leaves the stored command
vector and yaw of every environment not in the list unchanged. -/
theorem c8_reset_frame (n : ℕ) (s : EnvState) (ids : List ℕ)
    (samples : ℕ → Vec3) (default_root_state : ℕ → RootState)
    (env_origins : ℕ → Vec3) (simRoot : ℕ → RootState) (i : ℕ)
    (hi : i ∉ ids) :
    (_reset_idx n s (some ids) samples default_root_state env_origins
        simRoot).1.commands i = s.commands i
      ∧ (_reset_idx n s (some ids) samples default_root_state env_origins
          simRoot).1.yaws i = s.yaws i := by
  constructor <;> simp [_reset_idx, hi]

/-- Witness for C8 at a concrete reset of environment 0 in a 2-environment
state, checked at the untouched environment 1. -/
theorem c8_reset_frame_witness :
    (_reset_idx 2 exState (some [0]) (fun _ => ⟨0, 1, 0⟩) (fun _ => exRoot)
        (fun _ => ⟨0, 0, 0⟩) (fun _ => exRoot)).1.commands 1
        = exState.commands 1
      ∧ (_reset_idx 2 exState (some [0]) (fun _ => ⟨0, 1, 0⟩)
          (fun _ => exRoot) (fun _ => ⟨0, 0, 0⟩)
          (fun _ => exRoot)).1.yaws 1 = exState.yaws 1 :=
  c8_reset_frame 2 exState [0] (fun _ => ⟨0, 1, 0⟩) (fun _ => exRoot)
    (fun _ => ⟨0, 0, 0⟩) (fun _ => exRoot) 1 (by decide)

/-- C9: `_reset_idx` with `env_ids = None` behaves exactly as if called with
the list of all environment indices: every environment `i < n` receives a
freshly sampled normalized command, a yaw recomputed from it, and a root
state written to sim equal to the default root state with its position
translated by the environment origin. -/
theorem c9_reset_none (n : ℕ) (s : EnvState) (samples : ℕ → Vec3)
    (default_root_state : ℕ → RootState) (env_origins : ℕ → Vec3)
    (simRoot : ℕ → RootState) (i : ℕ) (hi : i < n) :
    _reset_idx n s none samples default_root_state env_origins simRoot
        = _reset_idx n s (some (List.range n)) samples default_root_state
            env_origins simRoot
      ∧ (_reset_idx n s none samples default_root_state env_origins
          simRoot).1.commands i = commandOf (samples i)
      ∧ (_reset_idx n s none samples default_root_state env_origins
          simRoot).1.yaws i = yawOf (commandOf (samples i))
      ∧ (_reset_idx n s none samples default_root_state env_origins
          simRoot).2 i
        = { default_root_state i with
              pos := vadd (default_root_state i).pos (env_origins i) } := by
  refine ⟨rfl, ?_, ?_, ?_⟩ <;> simp [_reset_idx, List.mem_range, hi]

/-- Witness for C9 at a concrete one-environment reset with `env_ids = None`. -/
theorem c9_reset_none_witness :
    _reset_idx 1 exState none (fun _ => ⟨0, 1, 0⟩) (fun _ => exRoot)
        (fun _ => ⟨2, 0, 0⟩) (fun _ => exRoot)
        = _reset_idx 1 exState (some (List.range 1)) (fun _ => ⟨0, 1, 0⟩)
            (fun _ => exRoot) (fun _ => ⟨2, 0, 0⟩) (fun _ => exRoot)
      ∧ (_reset_idx 1 exState none (fun _ => ⟨0, 1, 0⟩) (fun _ => exRoot)
          (fun _ => ⟨2, 0, 0⟩) (fun _ => exRoot)).1.commands 0
        = commandOf ⟨0, 1, 0⟩
      ∧ (_reset_idx 1 exState none (fun _ => ⟨0, 1, 0⟩) (fun _ => exRoot)
          (fun _ => ⟨2, 0, 0⟩) (fun _ => exRoot)).1.yaws 0
        = yawOf (commandOf ⟨0, 1, 0⟩)
      ∧ (_reset_idx 1 exState none (fun _ => ⟨0, 1, 0⟩) (fun _ => exRoot)
          (fun _ => ⟨2, 0, 0⟩) (fun _ => exRoot)).2 0
        = { exRoot with pos := vadd exRoot.pos ⟨2, 0, 0⟩ } :=
  c9_reset_none 1 exState (fun _ => ⟨0, 1, 0⟩) (fun _ => exRoot)
    (fun _ => ⟨2, 0, 0⟩) (fun _ => exRoot) 0 (by decide)

/-- C10: `_pre_physics_step` stores an independent copy of the received
actions tensor; mutating the caller's tensor afterwards does not change what
`_apply_action` applies; and `_apply_action` sets exactly the joints of
`dof_idx` to the stored copy, leaving every other joint target unchanged. -/
theorem c10_actions_clone (h : Heap) (actionsRef : ℕ) (dofIdx : List ℕ)
    (targets : ℕ → ℝ) (v : List ℝ) (hvalid : actionsRef < h.next) :
    (_pre_physics_step h actionsRef).1.mem (_pre_physics_step h actionsRef).2
        = h.mem actionsRef
      ∧ _apply_action
          (writeRef (_pre_physics_step h actionsRef).1 actionsRef v)
          (_pre_physics_step h actionsRef).2 dofIdx targets
        = _apply_action (_pre_physics_step h actionsRef).1
            (_pre_physics_step h actionsRef).2 dofIdx targets
      ∧ (∀ j, j ∉ dofIdx →
          _apply_action (_pre_physics_step h actionsRef).1
            (_pre_physics_step h actionsRef).2 dofIdx targets j = targets j)
      ∧ (dofIdx.Nodup → ∀ j w, (j, w) ∈ dofIdx.zip (h.mem actionsRef) →
          _apply_action (_pre_physics_step h actionsRef).1
            (_pre_physics_step h actionsRef).2 dofIdx targets j = w) := by
  have hne : h.next ≠ actionsRef := (Nat.ne_of_lt hvalid).symm
  refine ⟨by simp [_pre_physics_step], ?_, ?_, ?_⟩
  · simp [_apply_action, writeRef, _pre_physics_step, hne]
  · intro j hj
    have hcopy : (_pre_physics_step h actionsRef).1.mem
        (_pre_physics_step h actionsRef).2 = h.mem actionsRef := by
      simp [_pre_physics_step]
    rw [_apply_action, hcopy]
    refine foldl_write_notin _ _ _ ?_
    intro p hp heq
    exact hj (heq ▸ (List.of_mem_zip hp).1)
  · intro hnd j w hmem
    have hcopy : (_pre_physics_step h actionsRef).1.mem
        (_pre_physics_step h actionsRef).2 = h.mem actionsRef := by
      simp [_pre_physics_step]
    rw [_apply_action, hcopy]
    exact foldl_write_mem _ _ _ _
      (hnd.sublist (map_fst_zip_sublist dofIdx (h.mem actionsRef))) hmem

/-- A concrete heap for the C10 witness: three allocated tensors, the one at
reference 0 holding `[1, 2]`. -/
def exHeap : Heap := ⟨fun _ => [1, 2], 3⟩

/-- Witness for C10 at the concrete heap `exHeap`, actions at reference 0,
joints `[0, 1]`, mutation value `[5, 6]`, checked at untouched joint 7 and
at the pair `(0, 1)` of the zipped joint/value list. -/
theorem c10_actions_clone_witness :
    (_pre_physics_step exHeap 0).1.mem (_pre_physics_step exHeap 0).2
        = exHeap.mem 0
      ∧ _apply_action (writeRef (_pre_physics_step exHeap 0).1 0 [5, 6])
          (_pre_physics_step exHeap 0).2 [0, 1] (fun _ => 0)
        = _apply_action (_pre_physics_step exHeap 0).1
            (_pre_physics_step exHeap 0).2 [0, 1] (fun _ => 0)
      ∧ _apply_action (_pre_physics_step exHeap 0).1
          (_pre_physics_step exHeap 0).2 [0, 1] (fun _ => 0) 7 = 0
      ∧ _apply_action (_pre_physics_step exHeap 0).1
          (_pre_physics_step exHeap 0).2 [0, 1] (fun _ => 0) 0 = 1 := by
  have hc := c10_actions_clone exHeap 0 [0, 1] (fun _ => 0) [5, 6]
    (by norm_num [exHeap])
  exact ⟨hc.1, hc.2.1, hc.2.2.1 7 (by decide),
    hc.2.2.2 (by decide) 0 1 (by simp [exHeap])⟩

/-- Zeroing the z entry of a row and dividing by the resulting row norm
yields a horizontal unit vector whenever the x and y entries are not both
zero. -/
lemma commandOf_horizontal_unit (v : Vec3) (h : ¬(v.x = 0 ∧ v.y = 0)) :
    (commandOf v).z = 0 ∧ vnorm (commandOf v) = 1 := by
  have hpos : (0 : ℝ) < v.x ^ 2 + v.y ^ 2 + 0 ^ 2 := by
    rcases not_and_or.mp h with hx | hy
    · have h1 : 0 < v.x ^ 2 := pow_two_pos_of_ne_zero hx
      have h2 : (0 : ℝ) ≤ v.y ^ 2 := sq_nonneg _
      nlinarith
    · have h1 : 0 < v.y ^ 2 := pow_two_pos_of_ne_zero hy
      have h2 : (0 : ℝ) ≤ v.x ^ 2 := sq_nonneg _
      nlinarith
  have hN : (0 : ℝ) < Real.sqrt (v.x ^ 2 + v.y ^ 2 + 0 ^ 2) :=
    Real.sqrt_pos.mpr hpos
  have hN0 : Real.sqrt (v.x ^ 2 + v.y ^ 2 + 0 ^ 2) ≠ 0 := ne_of_gt hN
  have hNsq : Real.sqrt (v.x ^ 2 + v.y ^ 2 + 0 ^ 2) ^ 2
      = v.x ^ 2 + v.y ^ 2 + 0 ^ 2 := Real.sq_sqrt hpos.le
  constructor
  · simp [commandOf, vdiv, zeroLastColumn, vnorm]
  · have key : (v.x / Real.sqrt (v.x ^ 2 + v.y ^ 2 + 0 ^ 2)) ^ 2
        + (v.y / Real.sqrt (v.x ^ 2 + v.y ^ 2 + 0 ^ 2)) ^ 2
        + ((0 : ℝ) / Real.sqrt (v.x ^ 2 + v.y ^ 2 + 0 ^ 2)) ^ 2 = 1 := by
      have hxy : v.x ^ 2 + v.y ^ 2 ≠ 0 := by nlinarith
      field_simp
    simp only [commandOf, vdiv, zeroLastColumn, vnorm]
    rw [key]
    exact Real.sqrt_one

/-- C4: after `_setup_scene`, and after `_reset_idx` for every reset
environment, the stored command vector has z-component zero and Euclidean
norm one, provided the sampled x and y entries are not both zero. -/
theorem c4_command_unit (samples : ℕ → Vec3) (i : ℕ)
    (hset : ¬((samples i).x = 0 ∧ (samples i).y = 0))
    (n : ℕ) (s : EnvState) (ids : List ℕ) (rsamples : ℕ → Vec3)
    (default_root_state : ℕ → RootState) (env_origins : ℕ → Vec3)
    (simRoot : ℕ → RootState) (j : ℕ) (hj : j ∈ ids)
    (hres : ¬((rsamples j).x = 0 ∧ (rsamples j).y = 0)) :
    (((_setup_scene samples).commands i).z = 0
       ∧ vnorm ((_setup_scene samples).commands i) = 1)
      ∧ (((_reset_idx n s (some ids) rsamples default_root_state env_origins
            simRoot).1.commands j).z = 0
         ∧ vnorm ((_reset_idx n s (some ids) rsamples default_root_state
            env_origins simRoot).1.commands j) = 1) := by
  have h1 := commandOf_horizontal_unit (samples i) hset
  have h2 := commandOf_horizontal_unit (rsamples j) hres
  constructor
  · simpa [_setup_scene] using h1
  · have hcmd : (_reset_idx n s (some ids) rsamples default_root_state
        env_origins simRoot).1.commands j = commandOf (rsamples j) := by
      simp [_reset_idx, hj]
    rw [hcmd]
    exact h2

/-- Witness for C4: setup sample `(3, 4, 5)` and reset sample `(0, 2, 0)`
for environment 0. -/
theorem c4_command_unit_witness :
    (((_setup_scene fun _ => ⟨3, 4, 5⟩).commands 0).z = 0
       ∧ vnorm ((_setup_scene fun _ => ⟨3, 4, 5⟩).commands 0) = 1)
      ∧ (((_reset_idx 1 exState (some [0]) (fun _ => ⟨0, 2, 0⟩)
            (fun _ => exRoot) (fun _ => ⟨0, 0, 0⟩)
            (fun _ => exRoot)).1.commands 0).z = 0
         ∧ vnorm ((_reset_idx 1 exState (some [0]) (fun _ => ⟨0, 2, 0⟩)
            (fun _ => exRoot) (fun _ => ⟨0, 0, 0⟩)
            (fun _ => exRoot)).1.commands 0) = 1) :=
  c4_command_unit (fun _ => ⟨3, 4, 5⟩) 0 (by norm_num) 1 exState [0]
    (fun _ => ⟨0, 2, 0⟩) (fun _ => exRoot) (fun _ => ⟨0, 0, 0⟩)
    (fun _ => exRoot) 0 (by decide) (by norm_num)

/-- A horizontal row that already has unit norm is fixed by the zeroing and
normalization of lines 73-75. -/
lemma commandOf_of_unit (x y : ℝ) (h : x ^ 2 + y ^ 2 = 1) :
    commandOf ⟨x, y, 0⟩ = ⟨x, y, 0⟩ := by
  have hs : x ^ 2 + y ^ 2 + (0 : ℝ) ^ 2 = 1 := by rw [h]; norm_num
  simp only [commandOf, zeroLastColumn, vdiv, vnorm]
  rw [hs, Real.sqrt_one]
  simp

/-- The yaw value of lines 77-84 lies in `[-π, π]` for every command row
whose x entry is nonnegative or strictly less than `-1E-8` (at `-1E-8`
exactly the program's division has a zero denominator, so that point is
excluded). -/
lemma yawOf_mem_range (c : Vec3) (hc : 0 ≤ c.x ∨ c.x < -eps) :
    -π ≤ yawOf c ∧ yawOf c ≤ π := by
  have hpi : (0 : ℝ) < π := Real.pi_pos
  have hat1 : Real.arctan (c.y / yawDenom c) < π / 2 :=
    Real.arctan_lt_pi_div_two _
  have hat2 : -(π / 2) < Real.arctan (c.y / yawDenom c) :=
    Real.neg_pi_div_two_lt_arctan _
  unfold yawOf
  by_cases h1 : c.x < 0 ∧ 0 < c.y
  · have hx : c.x ≤ -eps := by
      rcases hc with hcx | hcx
      · exact absurd hcx (not_le.mpr h1.1)
      · exact hcx.le
    have h2 : ¬(c.x < 0 ∧ c.y < 0) := fun h2 => absurd h1.2 (not_lt.mpr h2.2.le)
    rw [if_pos h1, if_neg h2]
    have hden : yawDenom c ≤ 0 := by unfold yawDenom; linarith
    have hr : c.y / yawDenom c ≤ 0 :=
      div_nonpos_iff.mpr (Or.inl ⟨h1.2.le, hden⟩)
    have hat3 : Real.arctan (c.y / yawDenom c) ≤ 0 := by
      calc Real.arctan (c.y / yawDenom c) ≤ Real.arctan 0 :=
            Real.arctan_strictMono.monotone hr
        _ = 0 := Real.arctan_zero
    constructor <;> linarith
  · by_cases h2 : c.x < 0 ∧ c.y < 0
    · have hx : c.x ≤ -eps := by
        rcases hc with hcx | hcx
        · exact absurd hcx (not_le.mpr h2.1)
        · exact hcx.le
      rw [if_neg h1, if_pos h2]
      have hden : yawDenom c ≤ 0 := by unfold yawDenom; linarith
      have hr : 0 ≤ c.y / yawDenom c :=
        div_nonneg_iff.mpr (Or.inr ⟨h2.2.le, hden⟩)
      have hat3 : 0 ≤ Real.arctan (c.y / yawDenom c) := by
        calc (0 : ℝ) = Real.arctan 0 := Real.arctan_zero.symm
          _ ≤ Real.arctan (c.y / yawDenom c) :=
            Real.arctan_strictMono.monotone hr
      constructor <;> linarith
    · rw [if_neg h1, if_neg h2]
      constructor <;> linarith

/-- The sampled row refuting C5: a horizontal unit row whose x entry lies
strictly between `-1E-8` and `0`. -/
def cexSample : Vec3 := ⟨-(eps / 2), Real.sqrt (1 - (eps / 2) ^ 2), 0⟩

/-- The C5 counterexample row is fixed by normalization. -/
lemma commandOf_cexSample : commandOf cexSample = cexSample := by
  have h0 : (0 : ℝ) ≤ 1 - (eps / 2) ^ 2 := by norm_num [eps]
  have h : (-(eps / 2)) ^ 2 + Real.sqrt (1 - (eps / 2) ^ 2) ^ 2 = 1 := by
    rw [Real.sq_sqrt h0]
    ring
  exact commandOf_of_unit (-(eps / 2)) (Real.sqrt (1 - (eps / 2) ^ 2)) h

/-- C5 counterexample: for the setup sample `cexSample` (a unit command with
`-1E-8 < x < 0` and `y > 0`), the stored yaw is NOT `atan2(y, x)` of the
stored command, and it does NOT lie in `[-π, π]`: the epsilon shifts the
denominator across zero, so `atan(y/(x+1E-8))` is positive and the `+π`
offset pushes the yaw strictly above `π`. -/
theorem c5_yaw_counterexample :
    (_setup_scene fun _ => cexSample).yaws 0
        ≠ atan2 ((_setup_scene fun _ => cexSample).commands 0).y
            ((_setup_scene fun _ => cexSample).commands 0).x
      ∧ ¬(-π ≤ (_setup_scene fun _ => cexSample).yaws 0
           ∧ (_setup_scene fun _ => cexSample).yaws 0 ≤ π) := by
  have hpi : (0 : ℝ) < π := Real.pi_pos
  have hcmd : (_setup_scene fun _ => cexSample).commands 0 = cexSample := by
    simp [_setup_scene, commandOf_cexSample]
  have hyaw : (_setup_scene fun _ => cexSample).yaws 0 = yawOf cexSample := by
    simp [_setup_scene, commandOf_cexSample]
  have hxneg : cexSample.x < 0 := by
    simp only [cexSample]
    norm_num [eps]
  have hypos : 0 < cexSample.y := by
    simp only [cexSample]
    exact Real.sqrt_pos.mpr (by norm_num [eps])
  have hynonneg : ¬cexSample.y < 0 := not_lt.mpr hypos.le
  have hden : 0 < yawDenom cexSample := by
    simp only [yawDenom, cexSample]
    norm_num [eps]
  have hratio : 0 < cexSample.y / yawDenom cexSample :=
    div_pos hypos hden
  have hat : 0 < Real.arctan (cexSample.y / yawDenom cexSample) := by
    calc (0 : ℝ) = Real.arctan 0 := Real.arctan_zero.symm
      _ < Real.arctan (cexSample.y / yawDenom cexSample) :=
          Real.arctan_strictMono hratio
  have hyawval : yawOf cexSample
      = Real.arctan (cexSample.y / yawDenom cexSample) + π := by
    unfold yawOf
    rw [if_pos ⟨hxneg, hypos⟩, if_neg (fun hh => hynonneg hh.2)]
    ring
  have hgt : π < yawOf cexSample := by
    rw [hyawval]
    linarith
  have hratio2 : cexSample.y / cexSample.x < 0 :=
    div_neg_of_pos_of_neg hypos hxneg
  have hat2 : Real.arctan (cexSample.y / cexSample.x) < 0 := by
    calc Real.arctan (cexSample.y / cexSample.x)
        < Real.arctan 0 := Real.arctan_strictMono hratio2
      _ = 0 := Real.arctan_zero
  have hatan2 : atan2 cexSample.y cexSample.x
      = Real.arctan (cexSample.y / cexSample.x) + π := by
    unfold atan2
    rw [if_neg (not_lt.mpr hxneg.le), if_pos ⟨hxneg, hypos.le⟩]
  constructor
  · rw [hyaw, hcmd, hatan2, hyawval]
    intro heq
    have : Real.arctan (cexSample.y / yawDenom cexSample)
        = Real.arctan (cexSample.y / cexSample.x) := by linarith
    linarith [hat2, hat, this]
  · rw [hyaw]
    intro hrange
    linarith [hrange.2]

/-- C5 amended: the stored yaw at setup and at reset equals the code's
offset-corrected arctangent `yawOf` of the stored command (that is,
`atan(y/(x+1E-8))`, plus `π` when `x < 0 < y`, minus `π` when
`x < 0 ∧ y < 0`), and for every command row whose x entry is nonnegative or
strictly less than `-1E-8` that value lies in `[-π, π]` (at `-1E-8` exactly
the program's division has a zero denominator, so that point is excluded). -/
theorem c5_yaw_formula_range (samples : ℕ → Vec3) (i : ℕ) (n : ℕ)
    (s : EnvState) (ids : List ℕ) (rsamples : ℕ → Vec3)
    (default_root_state : ℕ → RootState) (env_origins : ℕ → Vec3)
    (simRoot : ℕ → RootState) (j : ℕ) (hj : j ∈ ids) (c : Vec3)
    (hc : 0 ≤ c.x ∨ c.x < -eps) :
    (_setup_scene samples).yaws i
        = yawOf ((_setup_scene samples).commands i)
      ∧ (_reset_idx n s (some ids) rsamples default_root_state env_origins
          simRoot).1.yaws j
        = yawOf ((_reset_idx n s (some ids) rsamples default_root_state
            env_origins simRoot).1.commands j)
      ∧ (-π ≤ yawOf c ∧ yawOf c ≤ π) := by
  refine ⟨rfl, ?_, yawOf_mem_range c hc⟩
  simp [_reset_idx, hj]

/-- Witness for C5 at a concrete setup sample, reset of environment 0, and
the horizontal unit command `(1, 0, 0)`. -/
theorem c5_yaw_formula_range_witness :
    (_setup_scene fun _ => ⟨3, 4, 5⟩).yaws 0
        = yawOf ((_setup_scene fun _ => ⟨3, 4, 5⟩).commands 0)
      ∧ (_reset_idx 1 exState (some [0]) (fun _ => ⟨0, 2, 0⟩)
          (fun _ => exRoot) (fun _ => ⟨0, 0, 0⟩) (fun _ => exRoot)).1.yaws 0
        = yawOf ((_reset_idx 1 exState (some [0]) (fun _ => ⟨0, 2, 0⟩)
            (fun _ => exRoot) (fun _ => ⟨0, 0, 0⟩)
            (fun _ => exRoot)).1.commands 0)
      ∧ (-π ≤ yawOf ⟨1, 0, 0⟩ ∧ yawOf ⟨1, 0, 0⟩ ≤ π) :=
  c5_yaw_formula_range (fun _ => ⟨3, 4, 5⟩) 0 1 exState [0]
    (fun _ => ⟨0, 2, 0⟩) (fun _ => exRoot) (fun _ => ⟨0, 0, 0⟩)
    (fun _ => exRoot) 0 (by decide) ⟨1, 0, 0⟩ (Or.inl (by norm_num))

/-- The sampled row refuting C6: a horizontal unit row whose x entry is
exactly `-1E-8`. -/
def cexSampleDen : Vec3 := ⟨-eps, Real.sqrt (1 - eps ^ 2), 0⟩

/-- C6 counterexample: the setup sample `cexSampleDen` produces a stored
command whose yaw-division denominator `x + 1E-8` is exactly zero, so the
additive epsilon does not make the denominator nonzero for every command. -/
theorem c6_denominator_counterexample :
    yawDenom ((_setup_scene fun _ => cexSampleDen).commands 0) = 0 := by
  have h0 : (0 : ℝ) ≤ 1 - eps ^ 2 := by norm_num [eps]
  have h : (-eps) ^ 2 + Real.sqrt (1 - eps ^ 2) ^ 2 = 1 := by
    rw [Real.sq_sqrt h0]
    ring
  have hcmd : (_setup_scene fun _ => cexSampleDen).commands 0
      = cexSampleDen := by
    show commandOf cexSampleDen = cexSampleDen
    exact commandOf_of_unit (-eps) (Real.sqrt (1 - eps ^ 2)) h
  rw [hcmd]
  simp [yawDenom, cexSampleDen]

/-- C6 amended: the denominator `x + 1E-8` of the yaw division is nonzero
for every command row whose x entry is not exactly `-1E-8`; in particular
the zero-x rows that would divide by zero without the guard are safe. -/
theorem c6_denominator_guard (c : Vec3) (h : c.x ≠ -eps) :
    yawDenom c ≠ 0 := by
  unfold yawDenom
  intro h0
  exact h (by linarith)

/-- Witness for C6 at the horizontal unit command `(1, 0, 0)`. -/
theorem c6_denominator_guard_witness : yawDenom ⟨1, 0, 0⟩ ≠ 0 :=
  c6_denominator_guard ⟨1, 0, 0⟩ (by norm_num [eps])

/-- C7: every `_visualize_markers` call submits exactly `2 * num_envs`
marker poses: for each environment `i`, pose `i` and pose `num_envs + i`
are both located at the robot root position offset by `(0, 0, 0.5)`; pose
`i` carries the robot root orientation with marker index 0 (the forward
arrow) and pose `num_envs + i` carries `quat_from_angle_axis(yaw, up_dir)`
with marker index 1 (the command arrow). -/
theorem c7_markers (quat_from_angle_axis : ℝ → Vec3 → Quat) (n : ℕ)
    (root_pos_w : List Vec3) (root_quat_w : List Quat) (yaws : List ℝ)
    (h1 : root_pos_w.length = n) (h2 : root_quat_w.length = n)
    (h3 : yaws.length = n) (i : ℕ) (hi : i < n) :
    (_visualize_markers quat_from_angle_axis n root_pos_w root_quat_w
        yaws).loc.length = 2 * n
      ∧ (_visualize_markers quat_from_angle_axis n root_pos_w root_quat_w
          yaws).rots.length = 2 * n
      ∧ (_visualize_markers quat_from_angle_axis n root_pos_w root_quat_w
          yaws).markerIndices.length = 2 * n
      ∧ (_visualize_markers quat_from_angle_axis n root_pos_w root_quat_w
          yaws).loc[i]?
        = root_pos_w[i]?.map (fun p => vadd p marker_offset)
      ∧ (_visualize_markers quat_from_angle_axis n root_pos_w root_quat_w
          yaws).loc[n + i]?
        = root_pos_w[i]?.map (fun p => vadd p marker_offset)
      ∧ (_visualize_markers quat_from_angle_axis n root_pos_w root_quat_w
          yaws).rots[i]? = root_quat_w[i]?
      ∧ (_visualize_markers quat_from_angle_axis n root_pos_w root_quat_w
          yaws).rots[n + i]?
        = yaws[i]?.map (fun yaw => quat_from_angle_axis yaw up_dir)
      ∧ (_visualize_markers quat_from_angle_axis n root_pos_w root_quat_w
          yaws).markerIndices[i]? = some 0
      ∧ (_visualize_markers quat_from_angle_axis n root_pos_w root_quat_w
          yaws).markerIndices[n + i]? = some 1 := by
  have hmaplen : (root_pos_w.map fun p => vadd p marker_offset).length = n := by
    simp [h1]
  have hcmdlen : (yaws.map fun yaw => quat_from_angle_axis yaw up_dir).length
      = n := by simp [h3]
  refine ⟨?_, ?_, ?_, ?_, ?_, ?_, ?_, ?_, ?_⟩
  · simp [_visualize_markers, h1, two_mul]
  · simp [_visualize_markers, h2, h3, two_mul]
  · simp [_visualize_markers, two_mul]
  · rw [_visualize_markers]
    simp only
    rw [List.getElem?_append_left (by rw [hmaplen]; exact hi)]
    simp
  · rw [_visualize_markers]
    simp only
    rw [List.getElem?_append_right (by rw [hmaplen]; omega)]
    rw [hmaplen]
    simp [Nat.add_sub_cancel_left]
  · rw [_visualize_markers]
    simp only
    rw [List.getElem?_append_left (by rw [h2]; exact hi)]
  · rw [_visualize_markers]
    simp only
    rw [List.getElem?_append_right (by rw [h2]; omega)]
    rw [h2]
    simp [Nat.add_sub_cancel_left]
  · rw [_visualize_markers]
    simp only
    rw [List.getElem?_append_left (by simp; exact hi)]
    simp [hi]
  · rw [_visualize_markers]
    simp only
    rw [List.getElem?_append_right (by simp)]
    simp [hi]

/-- Witness for C7 at one environment with root position `(0, 0, 0)`, root
orientation `(1, 0, 0, 0)`, yaw `0`, and a concrete host rotation
function. -/
theorem c7_markers_witness :
    (_visualize_markers (fun _ _ => ⟨1, 0, 0, 0⟩) 1 [⟨0, 0, 0⟩]
        [⟨1, 0, 0, 0⟩] [0]).loc.length = 2 * 1
      ∧ (_visualize_markers (fun _ _ => ⟨1, 0, 0, 0⟩) 1 [⟨0, 0, 0⟩]
          [⟨1, 0, 0, 0⟩] [0]).rots.length = 2 * 1
      ∧ (_visualize_markers (fun _ _ => ⟨1, 0, 0, 0⟩) 1 [⟨0, 0, 0⟩]
          [⟨1, 0, 0, 0⟩] [0]).markerIndices.length = 2 * 1
      ∧ (_visualize_markers (fun _ _ => ⟨1, 0, 0, 0⟩) 1 [⟨0, 0, 0⟩]
          [⟨1, 0, 0, 0⟩] [0]).loc[0]?
        = ([⟨0, 0, 0⟩] : List Vec3)[0]?.map (fun p => vadd p marker_offset)
      ∧ (_visualize_markers (fun _ _ => ⟨1, 0, 0, 0⟩) 1 [⟨0, 0, 0⟩]
          [⟨1, 0, 0, 0⟩] [0]).loc[1 + 0]?
        = ([⟨0, 0, 0⟩] : List Vec3)[0]?.map (fun p => vadd p marker_offset)
      ∧ (_visualize_markers (fun _ _ => ⟨1, 0, 0, 0⟩) 1 [⟨0, 0, 0⟩]
          [⟨1, 0, 0, 0⟩] [0]).rots[0]? = ([⟨1, 0, 0, 0⟩] : List Quat)[0]?
      ∧ (_visualize_markers (fun _ _ => ⟨1, 0, 0, 0⟩) 1 [⟨0, 0, 0⟩]
          [⟨1, 0, 0, 0⟩] [0]).rots[1 + 0]?
        = ([(0 : ℝ)] : List ℝ)[0]?.map
            (fun yaw => (fun _ _ => (⟨1, 0, 0, 0⟩ : Quat)) yaw up_dir)
      ∧ (_visualize_markers (fun _ _ => ⟨1, 0, 0, 0⟩) 1 [⟨0, 0, 0⟩]
          [⟨1, 0, 0, 0⟩] [0]).markerIndices[0]? = some 0
      ∧ (_visualize_markers (fun _ _ => ⟨1, 0, 0, 0⟩) 1 [⟨0, 0, 0⟩]
          [⟨1, 0, 0, 0⟩] [0]).markerIndices[1 + 0]? = some 1 :=
  c7_markers (fun _ _ => ⟨1, 0, 0, 0⟩) 1 [⟨0, 0, 0⟩] [⟨1, 0, 0, 0⟩] [0]
    rfl rfl rfl 0 (by decide)

end LearnHow2use

end
